import Mathlib

/-!
Formal model of the Prometheus device-detection module
(`app/devices/detection.py`).

Strings are modelled as `List Char`; Python's `None`-or-value results are
modelled with `Option`.  Pure helpers of the module (response sanitization,
signature matching, USB-id matching, the retry loop, the scan-result
aggregation) are translated directly from the source; the two pieces of the
Python standard library that the module calls into — the `re` regex engine
and the serial transport — are modelled as explicit function parameters
(an extraction oracle and a per-attempt transport outcome), since their
code is not part of this repository.
-/

namespace Prometheus

/-- Model of Python's `str.isprintable` on one character: control characters
(C0, DEL, C1) and Unicode line/paragraph/space separators are not printable,
the ASCII space and all other characters are.  (The full Unicode
category tables for unassigned/format code points are elided; every proof
below is independent of the exact value of this predicate.) -/
def pyIsPrintable (c : Char) : Bool :=
  if c.val < 0x20 then false
  else if c.val == 0x7F then false
  else if 0x80 ≤ c.val && c.val ≤ 0x9F then false
  else if c.val == 0xA0 || c.val == 0x1680 || (0x2000 ≤ c.val && c.val ≤ 0x200A)
      || c.val == 0x2028 || c.val == 0x2029 || c.val == 0x202F
      || c.val == 0x205F || c.val == 0x3000 then false
  else true

/-- Model of Python's `str.isspace` on one character (the set stripped by
`str.strip()`): ASCII whitespace, the C0 information separators, NEL, and the
Unicode space/line/paragraph separators. -/
def pyIsSpace (c : Char) : Bool :=
  (0x09 ≤ c.val && c.val ≤ 0x0D) || c.val == 0x20
  || (0x1C ≤ c.val && c.val ≤ 0x1F) || c.val == 0x85 || c.val == 0xA0
  || c.val == 0x1680 || (0x2000 ≤ c.val && c.val ≤ 0x200A)
  || c.val == 0x2028 || c.val == 0x2029 || c.val == 0x202F
  || c.val == 0x205F || c.val == 0x3000

/-- The character filter of `DeviceDetector._clean_response`:
`c.isprintable() or c in '\r\n\t'`. -/
def keepChar (c : Char) : Bool :=
  pyIsPrintable c || c == '\r' || c == '\n' || c == '\t'

/-- `str.replace('\r\n', '\n')`: one left-to-right pass replacing each
non-overlapping occurrence of `"\r\n"`. -/
def replaceCRLF : List Char → List Char
  | '\r' :: '\n' :: rest => '\n' :: replaceCRLF rest
  | c :: rest => c :: replaceCRLF rest
  | [] => []

/-- `str.replace('\r', '\n')`. -/
def replaceCR (l : List Char) : List Char :=
  l.map (fun c => if c = '\r' then '\n' else c)

/-- `str.split('\n')`: split on every newline, keeping empty pieces
(`''.split('\n') == ['']`). -/
def splitLines : List Char → List (List Char)
  | [] => [[]]
  | c :: rest =>
    if c = '\n' then [] :: splitLines rest
    else ((c :: (splitLines rest).headD []) :: (splitLines rest).tail)

/-- `'\n'.join(lines)`. -/
def joinLines : List (List Char) → List Char
  | [] => []
  | [l] => l
  | l :: ls => l ++ '\n' :: joinLines ls

/-- `str.lstrip()` (no argument: strips `str.isspace` characters). -/
def pyLStrip (l : List Char) : List Char :=
  l.dropWhile pyIsSpace

/-- `str.rstrip()` (no argument). -/
def pyRStrip (l : List Char) : List Char :=
  (l.reverse.dropWhile pyIsSpace).reverse

/-- `str.strip()` (no argument): strip whitespace from both ends. -/
def pyStrip (l : List Char) : List Char :=
  pyRStrip (pyLStrip l)

/-- The line list built by `DeviceDetector._clean_response`:
`[line.strip() for line in cleaned.split('\n') if line.strip()]` applied to
the filtered, newline-normalized response (a list comprehension that maps
`strip` and keeps the non-empty results). -/
def cleanLines (s : List Char) : List (List Char) :=
  ((splitLines (replaceCR (replaceCRLF (s.filter keepChar)))).map pyStrip).filter
    (fun l => !l.isEmpty)

/-- `DeviceDetector._clean_response`: drop non-printable characters except
`\r\n\t`, normalize line terminators to `\n`, strip each line, drop empty
lines, rejoin with `\n`. -/
def cleanResponse (s : List Char) : List Char :=
  joinLines (cleanLines s)

/-- ASCII model of Python's `str.lower()`, applied character by character. -/
def pyLower (l : List Char) : List Char :=
  l.map Char.toLower

/-- ASCII model of Python's `str.upper()`, applied character by character. -/
def pyUpper (l : List Char) : List Char :=
  l.map Char.toUpper

/-- The three per-field extraction patterns of a signature's
`response_format` mapping. -/
inductive FieldKey
  | modelRegex
  | serialRegex
  | firmwareRegex
  deriving DecidableEq, Repr

/-- A device signature as `DeviceDetector._match_device` reads it: the
device-type key, the curated `known_models` list (tier 1) and the fallback
`model_patterns` list (tier 2).  The `response_format` regex table is
consumed only through the extraction oracle (see `Extractor`). -/
structure Signature where
  deviceType : List Char
  knownModels : List (List Char)
  modelPatterns : List (List Char)
  deriving DecidableEq, Repr

/-- The boundary to `DeviceDetector._extract_field` + Python's `re` engine:
given the response and a signature, optionally produce the extracted,
stripped value of one field.  `_match_device` is parametric in it. -/
abbrev Extractor := List Char → Signature → FieldKey → Option (List Char)

/-- Result of a detection attempt (`DetectionResult` dataclass). -/
structure DetectionResult where
  success : Bool
  deviceType : Option (List Char) := none
  model : Option (List Char) := none
  serialNumber : Option (List Char) := none
  firmwareVersion : Option (List Char) := none
  comPort : Option (List Char) := none
  rawResponse : Option (List Char) := none
  error : Option (List Char) := none
  deriving DecidableEq, Repr

/-- Python's substring test `needle in hay` on strings: the needle occurs
contiguously inside the haystack. -/
def substrHit (needle hay : List Char) : Bool :=
  decide (needle <:+: hay)

/-- One `known_models` check of `_match_device`:
`known.lower() == model.lower() or known.lower() in model.lower()`. -/
def knownHit (model known : List Char) : Bool :=
  pyLower known == pyLower model || substrHit (pyLower known) (pyLower model)

/-- One `model_patterns` check of `_match_device`:
`pattern.lower() in model.lower()`. -/
def patternHit (model pat : List Char) : Bool :=
  substrHit (pyLower pat) (pyLower model)

/-- Tier 1 of `_match_device` for one signature: some known model matches. -/
def tier1Hit (sig : Signature) (model : List Char) : Bool :=
  sig.knownModels.any (knownHit model)

/-- Tier 2 of `_match_device` for one signature: some pattern substring
matches. -/
def tier2Hit (sig : Signature) (model : List Char) : Bool :=
  sig.modelPatterns.any (patternHit model)

/-- The successful `DetectionResult` built by `_match_device` on a tier-1 or
tier-2 hit: serial number and firmware version are extracted with the same
signature's patterns, and failure of those secondary extractions just leaves
the fields empty. -/
def successResult (extract : Extractor) (response : List Char) (sig : Signature)
    (model comPort : List Char) : DetectionResult :=
  { success := true
    deviceType := some sig.deviceType
    model := some model
    serialNumber := extract response sig .serialRegex
    firmwareVersion := extract response sig .firmwareRegex
    comPort := some comPort }

/-- The failed result `_match_device` returns when no signature matched. -/
def unknownDeviceResult (comPort : List Char) : DetectionResult :=
  { success := false
    comPort := some comPort
    error := some "Unknown device type".toList }

/-- `DeviceDetector._match_device`: walk the registry in order; for each
signature extract the model (a falsy value — `None` or the empty string —
skips to the next signature), then try the signature's own `known_models`
(tier 1) and, failing that, its `model_patterns` (tier 2); the first
signature with a hit at either tier wins. -/
def matchDevice (extract : Extractor) (sigs : List Signature)
    (response comPort : List Char) : DetectionResult :=
  match sigs with
  | [] => unknownDeviceResult comPort
  | sig :: rest =>
    match extract response sig .modelRegex with
    | none => matchDevice extract rest response comPort
    | some model =>
      if model.isEmpty then matchDevice extract rest response comPort
      else if tier1Hit sig model then successResult extract response sig model comPort
      else if tier2Hit sig model then successResult extract response sig model comPort
      else matchDevice extract rest response comPort

/-- A signature that `_match_device` passes over for this response: the
model extraction is falsy, or the extracted model hits neither tier. -/
def sigMisses (extract : Extractor) (response : List Char) (sig : Signature) : Bool :=
  match extract response sig .modelRegex with
  | none => true
  | some model => model.isEmpty || (!tier1Hit sig model && !tier2Hit sig model)

/-- The signature of the spec's worked example (the default atlas3 entry). -/
def atlasSig : Signature :=
  { deviceType := "atlas3".toList
    knownModels := ["PCI6-AD-X16HI-BG6-144".toList, "PCI6-AD-X16HI-BG6-80".toList]
    modelPatterns := ["PCI6-AD".toList] }

/-- Extraction oracle for the spec's worked example response
`"Model: PCI6-AD-X16HI-BG6-144\nSerial: AX16-001\n"`. -/
def exampleExtract : Extractor := fun _ _ k =>
  match k with
  | .modelRegex => some "PCI6-AD-X16HI-BG6-144".toList
  | .serialRegex => some "AX16-001".toList
  | .firmwareRegex => none

/-- The sanitized example response of the spec. -/
def exampleResponse : List Char :=
  "Model: PCI6-AD-X16HI-BG6-144\nSerial: AX16-001".toList

/-- First registry entry of the C1 counterexample: its tier-1 list does not
match the extracted model but its tier-2 pattern does. -/
def sigAlpha : Signature :=
  { deviceType := "alpha".toList
    knownModels := ["AAA-1".toList]
    modelPatterns := ["PAT".toList] }

/-- Second registry entry of the C1 counterexample: its tier-1 list matches
the extracted model exactly. -/
def sigBeta : Signature :=
  { deviceType := "beta".toList
    knownModels := ["ZPAT-9".toList]
    modelPatterns := [] }

/-- Extraction oracle of the C1 counterexample: every signature's model
pattern extracts the same model string `"ZPAT-9"`. -/
def cexExtract : Extractor := fun _ _ k =>
  if k = .modelRegex then some "ZPAT-9".toList else none

/-- The response of the C1 counterexample. -/
def cexResponse : List Char := "Model: ZPAT-9".toList

/-- An extraction oracle that never produces a model. -/
def noneExtract : Extractor := fun _ _ _ => none

/-- What one attempt of `DeviceDetector._send_ver_command` observes from the
serial transport: the decoded text of the bytes it collected (`bytes []`
models an attempt that received zero bytes; decoding itself never fails
because of `errors='replace'`), a `serial.SerialException` raised while
opening or talking to the port, or any other exception. -/
inductive AttemptOutcome
  | bytes (raw : List Char)
  | serialErr
  | otherErr
  deriving DecidableEq, Repr

/-- The retry loop of `DeviceDetector._send_ver_command`, started at attempt
index `i` with `n` attempts remaining: an attempt whose sanitized response
is non-empty returns it; zero bytes or an empty sanitized response falls
through to the next attempt; a `SerialException` is logged (with a backoff
sleep) and retried; any other exception breaks out of the loop, which then
returns `None`. -/
def sendVerFrom (transport : Nat → AttemptOutcome) : Nat → Nat → Option (List Char)
  | _, 0 => none
  | i, n + 1 =>
    match transport i with
    | .bytes raw =>
      if (cleanResponse raw).isEmpty then sendVerFrom transport (i + 1) n
      else some (cleanResponse raw)
    | .serialErr => sendVerFrom transport (i + 1) n
    | .otherErr => none

/-- `DeviceDetector._send_ver_command`: up to `retryCount` attempts starting
from attempt 0. -/
def sendVerCommand (transport : Nat → AttemptOutcome) (retryCount : Nat) :
    Option (List Char) :=
  sendVerFrom transport 0 retryCount

/-- `DeviceDetector.detect`: probe the port; with no usable response, fail
with `"No response from device"`; otherwise match the sanitized response
against the registry and attach the raw response. -/
def detect (transport : Nat → AttemptOutcome) (retryCount : Nat) (extract : Extractor)
    (sigs : List Signature) (comPort : List Char) : DetectionResult :=
  match sendVerCommand transport retryCount with
  | none =>
    { success := false
      comPort := some comPort
      error := some "No response from device".toList }
  | some response =>
    { matchDevice extract sigs response comPort with rawResponse := some response }

/-- An attempt that the retry loop continues past: a recoverable serial
error, or bytes whose sanitized form is empty (which includes zero bytes). -/
def attemptContinues (transport : Nat → AttemptOutcome) (j : Nat) : Prop :=
  transport j = .serialErr ∨
    ∃ raw, transport j = .bytes raw ∧ (cleanResponse raw).isEmpty = true

/-- A transport that yields zero bytes on every attempt. -/
def silentTransport : Nat → AttemptOutcome := fun _ => .bytes []

/-- Witness transport: a serial error on the first attempt, then a response. -/
def retryTransportA : Nat → AttemptOutcome :=
  fun j => if j = 0 then .serialErr else .bytes "ver 1.0".toList

/-- Witness transport: zero bytes on the first attempt, then a non-serial
exception. -/
def retryTransportB : Nat → AttemptOutcome :=
  fun j => if j = 0 then .bytes [] else .otherErr

/-- Witness transport: a serial error on every attempt. -/
def retryTransportC : Nat → AttemptOutcome := fun _ => .serialErr

/-- One registry entry of `DeviceSignatures.get_known_usb_ids`: a USB
vendor/product id pair together with its device type. -/
structure UsbEntry where
  vid : List Char
  pid : List Char
  deviceType : List Char
  deriving DecidableEq, Repr

/-- The three checks of `DeviceSignatures.match_usb_id` for one entry, on
the upper-cased hardware-ID string: `VID_xxxx` and `PID_xxxx` both
contained; the pyserial form `VID:PID=xxxx:xxxx` contained; or the bare
`xxxx:xxxx` run contained. -/
def entryHits (hwid : List Char) (e : UsbEntry) : Bool :=
  (substrHit ("VID_".toList ++ pyUpper e.vid) (pyUpper hwid) &&
    substrHit ("PID_".toList ++ pyUpper e.pid) (pyUpper hwid))
  || substrHit ("VID:PID=".toList ++ pyUpper e.vid ++ ':' :: pyUpper e.pid) (pyUpper hwid)
  || substrHit (pyUpper e.vid ++ ':' :: pyUpper e.pid) (pyUpper hwid)

/-- The entry loop of `match_usb_id`: first entry whose checks hit wins. -/
def matchUsbIdLoop (hwid : List Char) : List UsbEntry → Option (List Char)
  | [] => none
  | e :: rest => if entryHits hwid e then some e.deviceType else matchUsbIdLoop hwid rest

/-- `DeviceSignatures.match_usb_id`: `None` for a falsy (empty) hardware-ID
string, otherwise the device type of the first entry whose VID/PID pair is
found in the string. -/
def matchUsbId (entries : List UsbEntry) (hwid : List Char) : Option (List Char) :=
  if hwid.isEmpty then none else matchUsbIdLoop hwid entries

/-- Modelled from the spec's words, for comparison with `entryHits`: the
hardware-ID string contains the entry's pair in one of the three documented
textual encodings — `VID_xxxx&PID_xxxx`, `VID:PID=xxxx:xxxx`, or a bare
`xxxx:xxxx` run — compared case-insensitively. -/
def containsDocumentedEncoding (hwid : List Char) (e : UsbEntry) : Bool :=
  substrHit ("VID_".toList ++ pyUpper e.vid ++ '&' :: "PID_".toList ++ pyUpper e.pid)
    (pyUpper hwid)
  || substrHit ("VID:PID=".toList ++ pyUpper e.vid ++ ':' :: pyUpper e.pid) (pyUpper hwid)
  || substrHit (pyUpper e.vid ++ ':' :: pyUpper e.pid) (pyUpper hwid)

/-- The registry entry of the spec's USB example. -/
def usbEntryAtlas : UsbEntry :=
  { vid := "045B".toList, pid := "5300".toList, deviceType := "atlas3".toList }

/-- Hardware-ID string of the C6 counterexample: it contains `VID_045B` and
`PID_5300` but with a space between them, so none of the three documented
encodings occurs in it. -/
def usbCexHwid : List Char := "USB VID_045B PID_5300".toList

/-- Hardware-ID string of the spec's USB example (pyserial Linux form). -/
def usbExampleHwid : List Char := "USB VID:PID=045b:5300 LOCATION=1-2".toList

/-- What `future.result()` delivers for one completed probe task of
`DetectionCache.scan_all_ports_fast`: the task's `DetectionResult`, or the
exception text when the task raised. -/
inductive TaskOutcome
  | completed (r : DetectionResult)
  | raised (msg : List Char)
  deriving DecidableEq, Repr

/-- The failed result built in the `except` arm of the scan's collection
loop: `DetectionResult(success=False, com_port=port, error=str(e))`. -/
def taskFailure (port msg : List Char) : DetectionResult :=
  { success := false, comPort := some port, error := some msg }

/-- Assignment into a Python dict (`d[port] = result`): replace the value of
an existing key in place, else append the new binding. -/
def cacheInsert : List (List Char × DetectionResult) → List Char → DetectionResult →
    List (List Char × DetectionResult)
  | [], p, r => [(p, r)]
  | (q, s) :: rest, p, r =>
    if q = p then (p, r) :: rest else (q, s) :: cacheInsert rest p r

/-- Lookup in a Python dict modelled as an association list. -/
def cacheLookup (m : List (List Char × DetectionResult)) (p : List Char) :
    Option DetectionResult :=
  match m with
  | [] => none
  | (q, r) :: rest => if q = p then some r else cacheLookup rest p

/-- The `as_completed` collection loop of `scan_all_ports_fast`, with the
dispatched tasks listed in completion order: a task that completed stores
its result in `results` and in the shared cache; a task that raised stores a
failed result carrying the exception text in `results` only. -/
def runTasks : List (List Char × TaskOutcome) → List (List Char × DetectionResult) →
    List (List Char × DetectionResult) →
    List (List Char × DetectionResult) × List (List Char × DetectionResult)
  | [], results, cache => (results, cache)
  | (port, .completed r) :: rest, results, cache =>
    runTasks rest (cacheInsert results port r) (cacheInsert cache port r)
  | (port, .raised msg) :: rest, results, cache =>
    runTasks rest (cacheInsert results port (taskFailure port msg)) cache

/-- Program counter of one call to `scan_all_ports_fast`, at the granularity
of its accesses to the shared `_scan_in_progress` flag: `ready` = about to
run `if self._scan_in_progress: return cached`; `setting` = the check saw
`False`, about to run `self._scan_in_progress = True`; `scanning` = flag
set, running the scan body; `finished ranScan` = returned (`ranScan` records
whether this call dispatched the scan or returned the cached snapshot). -/
inductive ScanPc
  | ready
  | setting
  | scanning
  | finished (ranScan : Bool)
  deriving DecidableEq, Repr, Fintype

/-- Two concurrent calls to `scan_all_ports_fast` and the shared
`_scan_in_progress` flag. -/
structure ScanSystem where
  flag : Bool
  pc1 : ScanPc
  pc2 : ScanPc
  deriving DecidableEq, Repr, Fintype

/-- One atomic step of a call: the check and the assignment of the flag are
separate statements in the source, hence separate steps here.  The
`scanning → finished` step models the whole `try ... finally` body: whether
dispatch returned or raised, the `finally` clause clears the flag. -/
def stepPc (flag : Bool) : ScanPc → Bool × ScanPc
  | .ready => if flag then (flag, .finished false) else (flag, .setting)
  | .setting => (true, .scanning)
  | .scanning => (false, .finished true)
  | .finished b => (flag, .finished b)

/-- Run one step of the chosen thread (`false` = first, `true` = second). -/
def stepSystem (s : ScanSystem) : Bool → ScanSystem
  | false => { s with flag := (stepPc s.flag s.pc1).1, pc1 := (stepPc s.flag s.pc1).2 }
  | true => { s with flag := (stepPc s.flag s.pc2).1, pc2 := (stepPc s.flag s.pc2).2 }

/-- Run a whole interleaving (a list of thread choices). -/
def execSchedule (s : ScanSystem) : List Bool → ScanSystem
  | [] => s
  | t :: rest => execSchedule (stepSystem s t) rest

/-- Both calls about to start, flag clear. -/
def scanInit : ScanSystem := { flag := false, pc1 := .ready, pc2 := .ready }

/-- The flag invariant actually maintained by the code: whenever the flag is
set, some call is inside the scan body. -/
abbrev ScanInv (s : ScanSystem) : Prop :=
  s.flag = true → s.pc1 = .scanning ∨ s.pc2 = .scanning

/-- What `match.group(1)` yields on a successful `re.search`: `IndexError`
when the pattern has no group 1; Python `None` when group 1 exists but did
not participate in the match (e.g. pattern `(A)?B` on response `B`); or the
captured text. -/
inductive Group1
  | indexError
  | noneGroup
  | captured (g : List Char)
  deriving DecidableEq, Repr

/-- What Python's `re.search(pattern, response, ...)` can do, as
`_extract_field` observes it: raise `re.error` (invalid pattern), find no
match, or return a match object whose `group(1)` behaves as `Group1`. -/
inductive ReOutcome
  | compileError
  | noMatch
  | matched (group1 : Group1)
  deriving DecidableEq, Repr

/-- The regex engine boundary: pattern and response to an outcome. -/
abbrev ReSearch := List Char → List Char → ReOutcome

/-- The exceptions that can be raised inside `_extract_field`'s `try` block:
`re.error` from `re.search`, `IndexError` from `group(1)` on a pattern with
no group 1, and `AttributeError` from `match.group(1).strip()` when
`group(1)` is `None` (group present but not participating). -/
inductive PyExn
  | reError
  | indexError
  | attributeError
  deriving DecidableEq, Repr

/-- The characters stripped from the extracted value's right end:
`value.rstrip('║│┃┆┇┊┋╎╏ \t')`. -/
def boxStripChars : List Char :=
  ['║', '│', '┃', '┆', '┇', '┊', '┋', '╎', '╏', ' ', '\t']

/-- `str.rstrip(chars)`: drop trailing characters from the given set. -/
def pyRStripSet (chars : List Char) (l : List Char) : List Char :=
  (l.reverse.dropWhile (fun c => chars.contains c)).reverse

/-- The `try` block of `_extract_field`: run the search, compute
`match.group(1).strip()` and right-strip the box-drawing characters;
propagate the exceptions the library calls can raise — including the
`AttributeError` of `None.strip()` when group 1 did not participate. -/
def searchBody (search : ReSearch) (pat response : List Char) :
    Except PyExn (Option (List Char)) :=
  match search pat response with
  | .compileError => .error .reError
  | .noMatch => .ok none
  | .matched .indexError => .error .indexError
  | .matched .noneGroup => .error .attributeError
  | .matched (.captured g) => .ok (some (pyRStripSet boxStripChars (pyStrip g)))

/-- The `except (re.error, IndexError): pass` arm of `_extract_field`: these
two exception kinds fall through to `return None`; any other exception
propagates to the caller. -/
def catchExtract : Except PyExn (Option (List Char)) → Except PyExn (Option (List Char))
  | .error .reError => .ok none
  | .error .indexError => .ok none
  | e => e

/-- `DeviceDetector._extract_field`: a missing or falsy (empty) pattern
returns `None`; otherwise run the guarded search.  The result is `Except`
so that an uncaught exception would be visible as `.error`. -/
def extractField (search : ReSearch) (response : List Char)
    (responseFormat : FieldKey → Option (List Char)) (key : FieldKey) :
    Except PyExn (Option (List Char)) :=
  match responseFormat key with
  | none => .ok none
  | some pat =>
    if pat.isEmpty then .ok none
    else catchExtract (searchBody search pat response)

/-- Witness oracle: the regex engine rejects every pattern. -/
def searchAlwaysError : ReSearch := fun _ _ => .compileError

/-- Witness oracle: every search matches but the pattern has no capturing
group, so `group(1)` raises `IndexError`. -/
def searchNoGroup : ReSearch := fun _ _ => .matched .indexError

/-- Oracle modelling the pattern `(A)?B` searched in the response `B`: the
search matches, group 1 exists but did not participate, so `group(1)` is
`None`. -/
def searchOptGroup : ReSearch := fun _ _ => .matched .noneGroup

/-- Witness response-format table: every field has the pattern `"(x)"`. -/
def fmtAll : FieldKey → Option (List Char) := fun _ => some "(x)".toList

/-- Witness response-format table: no field has a pattern. -/
def fmtNone : FieldKey → Option (List Char) := fun _ => none

/-- Witness response-format table: every field has the empty (falsy)
pattern. -/
def fmtEmpty : FieldKey → Option (List Char) := fun _ => some []

/-- Response-format table of the C10 counterexample: every field has the
pattern `"(A)?B"`, whose group 1 is optional. -/
def fmtOptGroup : FieldKey → Option (List Char) := fun _ => some "(A)?B".toList

/-- Witness scan task list: one task completed, one raised. -/
def scanTasksW : List (List Char × TaskOutcome) :=
  [("COM1".toList, .completed (unknownDeviceResult "COM1".toList)),
   ("COM2".toList, .raised "io error".toList)]

/-! ### Properties of the sanitizer -/

theorem head?_dropWhile_false (p : Char → Bool) (l : List Char) :
    ∀ c, (l.dropWhile p).head? = some c → p c = false := by
  induction l with
  | nil => intro c h; simp [List.dropWhile] at h
  | cons a l ih =>
    intro c h
    rw [List.dropWhile_cons] at h
    cases hpa : p a with
    | true => rw [hpa] at h; simp only [if_true] at h; exact ih c h
    | false =>
      rw [hpa] at h
      simp only [Bool.false_eq_true, if_false, List.head?_cons, Option.some.injEq] at h
      rw [← h]; exact hpa

theorem dropWhile_of_head?_false (p : Char → Bool) (l : List Char)
    (h : ∀ c, l.head? = some c → p c = false) : l.dropWhile p = l := by
  cases l with
  | nil => rfl
  | cons a l => rw [List.dropWhile_cons, h a rfl]; simp

theorem dropWhile_self_idem (p : Char → Bool) (l : List Char) :
    (l.dropWhile p).dropWhile p = l.dropWhile p :=
  dropWhile_of_head?_false p _ (head?_dropWhile_false p l)

theorem pyRStrip_isPrefix (l : List Char) : pyRStrip l <+: l := by
  have h : List.dropWhile pyIsSpace l.reverse <:+ l.reverse :=
    List.dropWhile_suffix pyIsSpace
  have h2 := List.reverse_prefix.mpr h
  rw [List.reverse_reverse] at h2
  exact h2

theorem head?_of_isPrefix {l₁ l₂ : List Char} (h : l₁ <+: l₂) (c : Char)
    (hc : l₁.head? = some c) : l₂.head? = some c := by
  obtain ⟨t, rfl⟩ := h
  cases l₁ with
  | nil => simp at hc
  | cons a l => simpa using hc

theorem pyStrip_idem (l : List Char) : pyStrip (pyStrip l) = pyStrip l := by
  unfold pyStrip
  have h1 : pyLStrip (pyRStrip (pyLStrip l)) = pyRStrip (pyLStrip l) := by
    apply dropWhile_of_head?_false
    intro c hc
    exact head?_dropWhile_false pyIsSpace l c (head?_of_isPrefix (pyRStrip_isPrefix _) c hc)
  rw [h1]
  unfold pyRStrip
  rw [List.reverse_reverse, dropWhile_self_idem]

theorem mem_pyStrip {c : Char} {l : List Char} (h : c ∈ pyStrip l) : c ∈ l := by
  unfold pyStrip pyRStrip pyLStrip at h
  rw [List.mem_reverse] at h
  have h2 := (List.dropWhile_sublist pyIsSpace).subset h
  rw [List.mem_reverse] at h2
  exact (List.dropWhile_sublist pyIsSpace).subset h2

theorem splitLines_ne_nil (l : List Char) : splitLines l ≠ [] := by
  cases l with
  | nil => simp [splitLines]
  | cons c rest => by_cases h : c = '\n' <;> simp [splitLines, h]

theorem mem_of_mem_splitLines {c : Char} {p l : List Char} :
    p ∈ splitLines l → c ∈ p → c ∈ l := by
  induction l generalizing p with
  | nil =>
    intro hp hc
    simp only [splitLines, List.mem_singleton] at hp
    subst hp
    simp at hc
  | cons a rest ih =>
    intro hp hc
    cases hq : splitLines rest with
    | nil => exact absurd hq (splitLines_ne_nil rest)
    | cons q qs =>
      by_cases ha : a = '\n'
      · rw [splitLines, if_pos ha] at hp
        rcases List.mem_cons.mp hp with h | h
        · subst h; simp at hc
        · exact List.mem_cons_of_mem a (ih h hc)
      · rw [splitLines, if_neg ha, hq] at hp
        simp only [List.headD_cons, List.tail_cons] at hp
        rcases List.mem_cons.mp hp with h | h
        · subst h
          rcases List.mem_cons.mp hc with h2 | h2
          · exact h2 ▸ List.mem_cons_self a rest
          · exact List.mem_cons_of_mem a (ih (hq ▸ List.mem_cons_self q qs) h2)
        · exact List.mem_cons_of_mem a (ih (hq ▸ List.mem_cons_of_mem q h) hc)

theorem not_newline_mem_splitLines {p l : List Char} :
    p ∈ splitLines l → '\n' ∉ p := by
  induction l generalizing p with
  | nil =>
    intro hp
    simp only [splitLines, List.mem_singleton] at hp
    subst hp
    simp
  | cons a rest ih =>
    intro hp
    cases hq : splitLines rest with
    | nil => exact absurd hq (splitLines_ne_nil rest)
    | cons q qs =>
      by_cases ha : a = '\n'
      · rw [splitLines, if_pos ha] at hp
        rcases List.mem_cons.mp hp with h | h
        · subst h; simp
        · exact ih h
      · rw [splitLines, if_neg ha, hq] at hp
        simp only [List.headD_cons, List.tail_cons] at hp
        rcases List.mem_cons.mp hp with h | h
        · subst h
          intro hmem
          rcases List.mem_cons.mp hmem with h2 | h2
          · exact ha h2.symm
          · exact ih (hq ▸ List.mem_cons_self q qs) h2
        · exact ih (hq ▸ List.mem_cons_of_mem q h)

theorem splitLines_no_newline {a : List Char} (h : '\n' ∉ a) : splitLines a = [a] := by
  induction a with
  | nil => rfl
  | cons c rest ih =>
    have hc : c ≠ '\n' := fun e => h (e ▸ List.mem_cons_self c rest)
    have hr : '\n' ∉ rest := fun m => h (List.mem_cons_of_mem c m)
    rw [splitLines, if_neg hc, ih hr]
    simp

theorem splitLines_append {a m : List Char} (h : '\n' ∉ a) :
    splitLines (a ++ '\n' :: m) = a :: splitLines m := by
  induction a with
  | nil => simp [splitLines]
  | cons c rest ih =>
    have hc : c ≠ '\n' := fun e => h (e ▸ List.mem_cons_self c rest)
    have hr : '\n' ∉ rest := fun m2 => h (List.mem_cons_of_mem c m2)
    rw [List.cons_append, splitLines, if_neg hc, ih hr]
    simp

theorem joinLines_cons_cons (a b : List Char) (t : List (List Char)) :
    joinLines (a :: b :: t) = a ++ '\n' :: joinLines (b :: t) := rfl

theorem mem_joinLines {c : Char} {ls : List (List Char)} :
    c ∈ joinLines ls → c = '\n' ∨ ∃ l ∈ ls, c ∈ l := by
  induction ls with
  | nil => intro h; simp [joinLines] at h
  | cons a t ih =>
    cases t with
    | nil =>
      intro h
      right
      exact ⟨a, List.mem_cons_self a [], h⟩
    | cons b t2 =>
      intro h
      rw [joinLines_cons_cons] at h
      rcases List.mem_append.mp h with h1 | h1
      · right; exact ⟨a, List.mem_cons_self a _, h1⟩
      · rcases List.mem_cons.mp h1 with h2 | h2
        · left; exact h2
        · rcases ih h2 with h3 | ⟨l, hl, hcl⟩
          · left; exact h3
          · right; exact ⟨l, List.mem_cons_of_mem a hl, hcl⟩

theorem splitLines_joinLines {ls : List (List Char)} (hne : ls ≠ [])
    (h : ∀ l ∈ ls, '\n' ∉ l) : splitLines (joinLines ls) = ls := by
  induction ls with
  | nil => exact absurd rfl hne
  | cons a t ih =>
    cases t with
    | nil => exact splitLines_no_newline (h a (List.mem_cons_self a []))
    | cons b t2 =>
      rw [joinLines_cons_cons, splitLines_append (h a (List.mem_cons_self a _)),
        ih (by simp) (fun l hl => h l (List.mem_cons_of_mem a hl))]

theorem replaceCRLF_cons (c : Char) (rest : List Char)
    (hx : ∀ r, c = '\r' → rest = '\n' :: r → False) :
    replaceCRLF (c :: rest) = c :: replaceCRLF rest := by
  rw [replaceCRLF.eq_def]
  split
  · next heq =>
    injection heq with h1 h2
    exact absurd h2 (fun h2 => hx _ h1 h2)
  · next heq => injection heq with h1 h2; subst h1; subst h2; rfl
  · next heq => simp at heq

theorem mem_replaceCRLF {c : Char} {l : List Char} :
    c ∈ replaceCRLF l → c ∈ l ∨ c = '\n' := by
  induction l using replaceCRLF.induct with
  | case1 rest ih =>
    intro h
    rw [show replaceCRLF ('\r' :: '\n' :: rest) = '\n' :: replaceCRLF rest from rfl] at h
    rcases List.mem_cons.mp h with h1 | h1
    · right; exact h1
    · rcases ih h1 with h2 | h2
      · left; exact List.mem_cons_of_mem _ (List.mem_cons_of_mem _ h2)
      · right; exact h2
  | case2 d rest hx ih =>
    intro h
    rw [replaceCRLF_cons d rest hx] at h
    rcases List.mem_cons.mp h with h1 | h1
    · left; exact h1 ▸ List.mem_cons_self d rest
    · rcases ih h1 with h2 | h2
      · left; exact List.mem_cons_of_mem d h2
      · right; exact h2
  | case3 =>
    intro h
    rw [show replaceCRLF [] = [] from rfl] at h
    simp at h

theorem replaceCRLF_of_no_cr {l : List Char} (h : '\r' ∉ l) : replaceCRLF l = l := by
  induction l using replaceCRLF.induct with
  | case1 rest ih => exact absurd (List.mem_cons_self '\r' _) h
  | case2 d rest hx ih =>
    rw [replaceCRLF_cons d rest hx, ih (fun m => h (List.mem_cons_of_mem d m))]
  | case3 => rfl

theorem no_cr_replaceCR (l : List Char) : '\r' ∉ replaceCR l := by
  intro h
  rw [replaceCR] at h
  rcases List.mem_map.mp h with ⟨a, _, ha⟩
  by_cases h2 : a = '\r'
  · rw [if_pos h2] at ha; exact absurd ha (by decide)
  · rw [if_neg h2] at ha; exact h2 ha

theorem mem_replaceCR {c : Char} {l : List Char} (h : c ∈ replaceCR l) :
    c ∈ l ∨ c = '\n' := by
  rw [replaceCR] at h
  rcases List.mem_map.mp h with ⟨a, ha, hae⟩
  by_cases h2 : a = '\r'
  · rw [if_pos h2] at hae; right; exact hae.symm
  · rw [if_neg h2] at hae; left; exact hae ▸ ha

theorem replaceCR_of_no_cr {l : List Char} (h : '\r' ∉ l) : replaceCR l = l := by
  rw [replaceCR]
  have h2 : ∀ a ∈ l, (if a = '\r' then '\n' else a) = id a := by
    intro a ha
    have hne : a ≠ '\r' := by
      intro e
      subst e
      exact h ha
    rw [if_neg hne, id]
  rw [List.map_congr_left h2, List.map_id]

theorem cleanLines_mem_ne_nil {s : List Char} {l : List Char}
    (h : l ∈ cleanLines s) : l ≠ [] := by
  rw [cleanLines] at h
  have h2 := (List.mem_filter.mp h).2
  intro e
  subst e
  simp at h2

theorem cleanLines_mem_stripped {s : List Char} {l : List Char}
    (h : l ∈ cleanLines s) : pyStrip l = l := by
  rw [cleanLines] at h
  have h2 := (List.mem_filter.mp h).1
  rcases List.mem_map.mp h2 with ⟨p, _, rfl⟩
  exact pyStrip_idem p

theorem cleanLines_mem_chars {s : List Char} {l : List Char}
    (h : l ∈ cleanLines s) :
    ∀ c ∈ l, keepChar c = true ∧ c ≠ '\n' ∧ c ≠ '\r' := by
  rw [cleanLines] at h
  have h2 := (List.mem_filter.mp h).1
  rcases List.mem_map.mp h2 with ⟨p, hp, rfl⟩
  intro c hc
  have hcp : c ∈ p := mem_pyStrip hc
  have hnorm : c ∈ replaceCR (replaceCRLF (List.filter keepChar s)) :=
    mem_of_mem_splitLines hp hcp
  refine ⟨?_, ?_, ?_⟩
  · rcases mem_replaceCR hnorm with h3 | h3
    · rcases mem_replaceCRLF h3 with h4 | h4
      · exact (List.mem_filter.mp h4).2
      · rw [h4]; decide
    · rw [h3]; decide
  · intro e
    subst e
    exact not_newline_mem_splitLines hp hcp
  · intro e
    subst e
    exact no_cr_replaceCR _ hnorm

theorem cleanResponse_fixed {ls : List (List Char)}
    (h1 : ∀ l ∈ ls, l ≠ [])
    (h2 : ∀ l ∈ ls, pyStrip l = l)
    (h3 : ∀ l ∈ ls, ∀ c ∈ l, keepChar c = true ∧ c ≠ '\n' ∧ c ≠ '\r') :
    cleanResponse (joinLines ls) = joinLines ls := by
  cases ls with
  | nil => rfl
  | cons a t =>
    have hne : (a :: t) ≠ ([] : List (List Char)) := by simp
    have hj : ∀ c ∈ joinLines (a :: t), keepChar c = true ∧ c ≠ '\r' := by
      intro c hc
      rcases mem_joinLines hc with h | ⟨l, hl, hcl⟩
      · subst h; exact ⟨by decide, by decide⟩
      · exact ⟨(h3 l hl c hcl).1, (h3 l hl c hcl).2.2⟩
    rw [cleanResponse, cleanLines]
    rw [List.filter_eq_self.mpr (fun c hc => (hj c hc).1)]
    rw [replaceCRLF_of_no_cr (fun hm => (hj '\r' hm).2 rfl)]
    rw [replaceCR_of_no_cr (fun hm => (hj '\r' hm).2 rfl)]
    rw [splitLines_joinLines hne (fun l hl hm => (h3 l hl '\n' hm).2.1 rfl)]
    rw [List.map_congr_left (g := id) (fun l hl => h2 l hl), List.map_id]
    rw [List.filter_eq_self.mpr ?_]
    intro l hl
    cases l with
    | nil => exact absurd rfl (h1 [] hl)
    | cons c r => rfl

/-- C7: the response sanitizer of `DeviceDetector._clean_response` is
idempotent: cleaning an already-cleaned response returns it unchanged. -/
theorem cleanResponse_idempotent (s : List Char) :
    cleanResponse (cleanResponse s) = cleanResponse s := by
  have h : cleanResponse s = joinLines (cleanLines s) := rfl
  rw [h]
  exact cleanResponse_fixed (fun l hl => cleanLines_mem_ne_nil hl)
    (fun l hl => cleanLines_mem_stripped hl) (fun l hl => cleanLines_mem_chars hl)

/-! ### Properties of signature matching -/

theorem matchDevice_skip (extract : Extractor) (response comPort : List Char)
    (sig : Signature) (rest : List Signature)
    (h : sigMisses extract response sig = true) :
    matchDevice extract (sig :: rest) response comPort =
      matchDevice extract rest response comPort := by
  rw [sigMisses] at h
  cases hx : extract response sig .modelRegex with
  | none => rw [matchDevice, hx]
  | some model =>
    rw [hx] at h
    rw [matchDevice, hx]
    dsimp only
    simp only [Bool.or_eq_true, Bool.and_eq_true, Bool.not_eq_true'] at h
    rcases h with he | ⟨h1, h2⟩
    · rw [if_pos he]
    · cases hie : model.isEmpty with
      | true => simp
      | false =>
        rw [if_neg (by simp), if_neg (by simp [h1]), if_neg (by simp [h2])]

theorem matchDevice_append (extract : Extractor) (response comPort : List Char)
    (pre rest : List Signature)
    (h : ∀ s ∈ pre, sigMisses extract response s = true) :
    matchDevice extract (pre ++ rest) response comPort =
      matchDevice extract rest response comPort := by
  induction pre with
  | nil => rfl
  | cons sig pre ih =>
    rw [List.cons_append,
      matchDevice_skip extract response comPort sig (pre ++ rest)
        (h sig (List.mem_cons_self sig pre)),
      ih (fun s hs => h s (List.mem_cons_of_mem sig hs))]

theorem matchDevice_hit (extract : Extractor) (response comPort model : List Char)
    (sig : Signature) (rest : List Signature)
    (hex : extract response sig .modelRegex = some model)
    (hie : model.isEmpty = false)
    (hhit : tier1Hit sig model = true ∨
      (tier1Hit sig model = false ∧ tier2Hit sig model = true)) :
    matchDevice extract (sig :: rest) response comPort =
      successResult extract response sig model comPort := by
  rw [matchDevice, hex]
  dsimp only
  rw [if_neg (by simp [hie])]
  rcases hhit with h1 | ⟨h1, h2⟩
  · rw [if_pos h1]
  · rw [if_neg (by simp [h1]), if_pos h2]

/-- C2: if, with every earlier signature missing, signature `sig`'s model
extraction yields a non-empty model that matches one of its `known_models`
(case-insensitively, exactly or as a substring of the model), then
`_match_device` succeeds with `sig`'s device type and the extracted model. -/
theorem matchDevice_known_model
    (extract : Extractor) (pre post : List Signature) (sig : Signature)
    (response comPort model known : List Char)
    (hpre : ∀ s ∈ pre, sigMisses extract response s = true)
    (hex : extract response sig .modelRegex = some model)
    (hne : model ≠ [])
    (hknown : known ∈ sig.knownModels)
    (hmatch : knownHit model known = true) :
    (matchDevice extract (pre ++ sig :: post) response comPort).success = true ∧
    (matchDevice extract (pre ++ sig :: post) response comPort).deviceType =
      some sig.deviceType ∧
    (matchDevice extract (pre ++ sig :: post) response comPort).model = some model := by
  have h1 : tier1Hit sig model = true := by
    rw [tier1Hit, List.any_eq_true]
    exact ⟨known, hknown, hmatch⟩
  have hie : model.isEmpty = false := by
    cases model with
    | nil => exact absurd rfl hne
    | cons c r => rfl
  rw [matchDevice_append extract response comPort pre (sig :: post) hpre,
    matchDevice_hit extract response comPort model sig post hex hie (Or.inl h1)]
  exact ⟨rfl, rfl, rfl⟩

/-- Witness for C2 at the spec's worked example. -/
theorem matchDevice_known_model_witness :
    (matchDevice exampleExtract [atlasSig] exampleResponse "COM3".toList).success = true ∧
    (matchDevice exampleExtract [atlasSig] exampleResponse "COM3".toList).deviceType =
      some "atlas3".toList ∧
    (matchDevice exampleExtract [atlasSig] exampleResponse "COM3".toList).model =
      some "PCI6-AD-X16HI-BG6-144".toList :=
  matchDevice_known_model exampleExtract [] [] atlasSig exampleResponse "COM3".toList
    "PCI6-AD-X16HI-BG6-144".toList "PCI6-AD-X16HI-BG6-144".toList
    (fun s hs => absurd hs (List.not_mem_nil s)) rfl (by decide) (by decide) (by decide)

/-- C1 counterexample: with registry `[sigAlpha, sigBeta]` and extracted
model `"ZPAT-9"`, the later signature `sigBeta` matches at tier 1, yet
`_match_device` returns the device type of the earlier signature
`sigAlpha`, which matches only at tier 2 — so tier-2 matching is not
deferred until tier 1 has failed across all signatures. -/
theorem tier2_precedes_later_tier1_cex :
    cexExtract cexResponse sigBeta .modelRegex = some "ZPAT-9".toList ∧
    tier1Hit sigBeta "ZPAT-9".toList = true ∧
    tier1Hit sigAlpha "ZPAT-9".toList = false ∧
    tier2Hit sigAlpha "ZPAT-9".toList = true ∧
    (matchDevice cexExtract [sigAlpha, sigBeta] cexResponse "COM3".toList).deviceType =
      some sigAlpha.deviceType ∧
    sigAlpha.deviceType ≠ sigBeta.deviceType :=
  ⟨rfl, by decide, by decide, by decide, by decide, by decide⟩

/-- C1 (amended): tier-2 matching is per signature, not global — for a
signature `sig` whose own tier 1 finds nothing but whose `model_patterns`
hit, `_match_device` returns `sig`'s tier-2 result as soon as all earlier
signatures miss, regardless of whether any later signature would match at
tier 1. -/
theorem matchDevice_tier2_per_signature
    (extract : Extractor) (pre post : List Signature) (sig : Signature)
    (response comPort model : List Char)
    (hpre : ∀ s ∈ pre, sigMisses extract response s = true)
    (hex : extract response sig .modelRegex = some model)
    (hne : model ≠ [])
    (h1 : tier1Hit sig model = false)
    (h2 : tier2Hit sig model = true) :
    matchDevice extract (pre ++ sig :: post) response comPort =
      successResult extract response sig model comPort := by
  have hie : model.isEmpty = false := by
    cases model with
    | nil => exact absurd rfl hne
    | cons c r => rfl
  rw [matchDevice_append extract response comPort pre (sig :: post) hpre,
    matchDevice_hit extract response comPort model sig post hex hie (Or.inr ⟨h1, h2⟩)]

/-- Witness for the amended C1: the counterexample registry, with the
tier-1-matching signature `sigBeta` in the tail. -/
theorem matchDevice_tier2_per_signature_witness :
    matchDevice cexExtract [sigAlpha, sigBeta] cexResponse "COM5".toList =
      successResult cexExtract cexResponse sigAlpha "ZPAT-9".toList "COM5".toList :=
  matchDevice_tier2_per_signature cexExtract [] [sigBeta] sigAlpha cexResponse
    "COM5".toList "ZPAT-9".toList (fun s hs => absurd hs (List.not_mem_nil s)) rfl
    (by decide) (by decide) (by decide)

/-- C3: if every signature misses (its model extraction is falsy or the
extracted model hits neither tier), `_match_device` fails with error
exactly `"Unknown device type"`; and a signature whose extraction yields
no value is simply skipped, leaving the result that of the remaining
registry. -/
theorem matchDevice_unknown_device
    (extract : Extractor) (sigs : List Signature) (sig : Signature)
    (rest : List Signature) (response comPort : List Char) :
    ((∀ s ∈ sigs, sigMisses extract response s = true) →
      (matchDevice extract sigs response comPort).success = false ∧
      (matchDevice extract sigs response comPort).error =
        some "Unknown device type".toList) ∧
    (extract response sig .modelRegex = none →
      matchDevice extract (sig :: rest) response comPort =
        matchDevice extract rest response comPort) := by
  constructor
  · intro h
    have he : matchDevice extract sigs response comPort = unknownDeviceResult comPort := by
      have h2 := matchDevice_append extract response comPort sigs [] h
      rw [List.append_nil] at h2
      exact h2
    rw [he]
    exact ⟨rfl, rfl⟩
  · intro h
    rw [matchDevice, h]

/-- Witness for C3: a registry in which no model can be extracted. -/
theorem matchDevice_unknown_device_witness :
    ((matchDevice noneExtract [sigAlpha] "garbage".toList "COM4".toList).success = false ∧
     (matchDevice noneExtract [sigAlpha] "garbage".toList "COM4".toList).error =
       some "Unknown device type".toList) ∧
    matchDevice noneExtract [sigAlpha] "garbage".toList "COM4".toList =
      matchDevice noneExtract [] "garbage".toList "COM4".toList :=
  ⟨(matchDevice_unknown_device noneExtract [sigAlpha] sigAlpha [] "garbage".toList
      "COM4".toList).1 (fun _ _ => rfl),
   (matchDevice_unknown_device noneExtract [sigAlpha] sigAlpha [] "garbage".toList
      "COM4".toList).2 rfl⟩

/-! ### Properties of the probe retry loop -/

theorem sendVerFrom_none_of_empty (transport : Nat → AttemptOutcome) :
    ∀ (n i : Nat), (∀ j, j < n → transport (i + j) = .bytes []) →
      sendVerFrom transport i n = none := by
  intro n
  induction n with
  | zero => intro i h; rfl
  | succ n ih =>
    intro i h
    have h0 : transport i = .bytes [] := by
      have h2 := h 0 (Nat.succ_pos n)
      rwa [Nat.add_zero] at h2
    rw [sendVerFrom, h0]
    dsimp only
    rw [if_pos (show (cleanResponse []).isEmpty = true from rfl)]
    refine ih (i + 1) (fun j hj => ?_)
    have h2 := h (j + 1) (Nat.succ_lt_succ hj)
    rwa [show i + (j + 1) = i + 1 + j by omega] at h2

theorem sendVerFrom_cont (transport : Nat → AttemptOutcome) (k n : Nat)
    (h : attemptContinues transport k) :
    sendVerFrom transport k (n + 1) = sendVerFrom transport (k + 1) n := by
  rcases h with h | ⟨raw, h, he⟩
  · rw [sendVerFrom, h]
  · rw [sendVerFrom, h]
    dsimp only
    rw [if_pos he]

theorem sendVerFrom_skip (transport : Nat → AttemptOutcome) :
    ∀ (i k n : Nat), (∀ j, k ≤ j → j < k + i → attemptContinues transport j) →
      i ≤ n → sendVerFrom transport k n = sendVerFrom transport (k + i) (n - i) := by
  intro i
  induction i with
  | zero => intro k n h hle; simp
  | succ i ih =>
    intro k n h hle
    cases n with
    | zero => omega
    | succ n =>
      rw [sendVerFrom_cont transport k n (h k (Nat.le_refl k) (by omega))]
      have h2 := ih (k + 1) n (fun j hj1 hj2 => h j (by omega) (by omega)) (by omega)
      rw [h2, show k + 1 + i = k + (i + 1) by omega, show n - i = n + 1 - (i + 1) by omega]

theorem sendVerFrom_success (transport : Nat → AttemptOutcome) (k n : Nat)
    (raw : List Char) (hb : transport k = .bytes raw)
    (hne : (cleanResponse raw).isEmpty = false) (hn : 0 < n) :
    sendVerFrom transport k n = some (cleanResponse raw) := by
  cases n with
  | zero => omega
  | succ n =>
    rw [sendVerFrom, hb]
    dsimp only
    rw [if_neg (by simp [hne])]

theorem sendVerFrom_abort (transport : Nat → AttemptOutcome) (k n : Nat)
    (hb : transport k = .otherErr) (hn : 0 < n) :
    sendVerFrom transport k n = none := by
  cases n with
  | zero => omega
  | succ n => rw [sendVerFrom, hb]

theorem sendVerFrom_congr (t1 t2 : Nat → AttemptOutcome) :
    ∀ (n i : Nat), (∀ j, j < n → t1 (i + j) = t2 (i + j)) →
      sendVerFrom t1 i n = sendVerFrom t2 i n := by
  intro n
  induction n with
  | zero => intro i h; rfl
  | succ n ih =>
    intro i h
    have h0 : t1 i = t2 i := by
      have h2 := h 0 (Nat.succ_pos n)
      rwa [Nat.add_zero] at h2
    have hrec : sendVerFrom t1 (i + 1) n = sendVerFrom t2 (i + 1) n := by
      refine ih (i + 1) (fun j hj => ?_)
      have h2 := h (j + 1) (Nat.succ_lt_succ hj)
      rwa [show i + (j + 1) = i + 1 + j by omega] at h2
    rw [sendVerFrom, sendVerFrom, ← h0]
    cases ht : t1 i with
    | bytes raw =>
      dsimp only
      rw [hrec]
    | serialErr => exact hrec
    | otherErr => rfl

/-- C4: a transport yielding zero bytes on every attempt makes `detect`
return a failed result whose error is exactly `"No response from device"`,
with the probed port recorded, rather than raising. -/
theorem detect_no_response
    (transport : Nat → AttemptOutcome) (retryCount : Nat) (extract : Extractor)
    (sigs : List Signature) (comPort : List Char)
    (h : ∀ j, j < retryCount → transport j = .bytes []) :
    (detect transport retryCount extract sigs comPort).success = false ∧
    (detect transport retryCount extract sigs comPort).error =
      some "No response from device".toList ∧
    (detect transport retryCount extract sigs comPort).comPort = some comPort := by
  have hnone : sendVerCommand transport retryCount = none := by
    rw [sendVerCommand]
    exact sendVerFrom_none_of_empty transport retryCount 0
      (fun j hj => by rw [Nat.zero_add]; exact h j hj)
  rw [detect, hnone]
  exact ⟨rfl, rfl, rfl⟩

/-- Witness for C4: two silent attempts on `COM9`. -/
theorem detect_no_response_witness :
    (detect silentTransport 2 noneExtract [atlasSig] "COM9".toList).success = false ∧
    (detect silentTransport 2 noneExtract [atlasSig] "COM9".toList).error =
      some "No response from device".toList ∧
    (detect silentTransport 2 noneExtract [atlasSig] "COM9".toList).comPort =
      some "COM9".toList :=
  detect_no_response silentTransport 2 noneExtract [atlasSig] "COM9".toList
    (fun _ _ => rfl)

/-- C5: the retry loop of `_send_ver_command` (i) consults at most
`retryCount` attempts — transports that agree on the first `retryCount`
attempts give the same outcome; (ii) returns the sanitized response of the
first attempt within the budget that yields a non-empty one, with earlier
recoverable serial errors and empty responses retried; and (iii) aborts
immediately with no response at the first non-serial exception, regardless
of the attempt budget remaining after it. -/
theorem sendVer_retry_policy
    (t1 t2 transport : Nat → AttemptOutcome) (retryCount i : Nat) (raw : List Char) :
    ((∀ j, j < retryCount → t1 j = t2 j) →
      sendVerCommand t1 retryCount = sendVerCommand t2 retryCount) ∧
    ((∀ j, j < i → attemptContinues transport j) → i < retryCount →
      transport i = .bytes raw → (cleanResponse raw).isEmpty = false →
      sendVerCommand transport retryCount = some (cleanResponse raw)) ∧
    ((∀ j, j < i → attemptContinues transport j) → i < retryCount →
      transport i = .otherErr →
      sendVerCommand transport retryCount = none) := by
  refine ⟨?_, ?_, ?_⟩
  · intro h
    exact sendVerFrom_congr t1 t2 retryCount 0
      (fun j hj => by rw [Nat.zero_add]; exact h j hj)
  · intro hc hi hb hne
    rw [sendVerCommand,
      sendVerFrom_skip transport i 0 retryCount (fun j hj1 hj2 => hc j (by omega))
        (by omega)]
    exact sendVerFrom_success transport (0 + i) (retryCount - i) raw
      (by rw [Nat.zero_add]; exact hb) hne (by omega)
  · intro hc hi hb
    rw [sendVerCommand,
      sendVerFrom_skip transport i 0 retryCount (fun j hj1 hj2 => hc j (by omega))
        (by omega)]
    exact sendVerFrom_abort transport (0 + i) (retryCount - i)
      (by rw [Nat.zero_add]; exact hb) (by omega)

/-- Witness for C5: a budget-limited pair of agreeing transports, a retry
after a serial error that then succeeds, and an immediate abort on a
non-serial exception with budget left. -/
theorem sendVer_retry_policy_witness :
    sendVerCommand retryTransportC 2 = sendVerCommand (fun _ => .serialErr) 2 ∧
    sendVerCommand retryTransportA 2 = some (cleanResponse "ver 1.0".toList) ∧
    sendVerCommand retryTransportB 5 = none := by
  refine ⟨?_, ?_, ?_⟩
  · exact (sendVer_retry_policy retryTransportC (fun _ => .serialErr) retryTransportC
      2 0 []).1 (fun _ _ => rfl)
  · refine (sendVer_retry_policy retryTransportA retryTransportA retryTransportA
      2 1 "ver 1.0".toList).2.1 ?_ (by omega) rfl (by decide)
    intro j hj
    have hj0 : j = 0 := by omega
    subst hj0
    exact Or.inl rfl
  · refine (sendVer_retry_policy retryTransportB retryTransportB retryTransportB
      5 1 []).2.2 ?_ (by omega) rfl
    intro j hj
    have hj0 : j = 0 := by omega
    subst hj0
    exact Or.inr ⟨[], rfl, rfl⟩

/-! ### Properties of USB-id matching -/

theorem substrHit_of_append_left (a b hay : List Char)
    (h : substrHit (a ++ b) hay = true) : substrHit a hay = true := by
  rw [substrHit, decide_eq_true_eq] at h ⊢
  exact (List.prefix_append a b).isInfix.trans h

theorem substrHit_of_append_right (a b hay : List Char)
    (h : substrHit (a ++ b) hay = true) : substrHit b hay = true := by
  rw [substrHit, decide_eq_true_eq] at h ⊢
  exact (List.suffix_append a b).isInfix.trans h

theorem substrHit_of_cons (c : Char) (b hay : List Char)
    (h : substrHit (c :: b) hay = true) : substrHit b hay = true := by
  rw [substrHit, decide_eq_true_eq] at h ⊢
  exact (List.suffix_cons c b).isInfix.trans h

theorem entryHits_of_documented (hwid : List Char) (e : UsbEntry)
    (h : containsDocumentedEncoding hwid e = true) : entryHits hwid e = true := by
  rw [containsDocumentedEncoding] at h
  rw [entryHits]
  simp only [Bool.or_eq_true] at h ⊢
  rcases h with h12 | h3
  · left
    rcases h12 with h1 | h2
    · left
      rw [show "VID_".toList ++ pyUpper e.vid ++ '&' :: "PID_".toList ++ pyUpper e.pid =
          ("VID_".toList ++ pyUpper e.vid) ++ ('&' :: ("PID_".toList ++ pyUpper e.pid))
          from by simp] at h1
      rw [Bool.and_eq_true]
      refine ⟨substrHit_of_append_left _ _ _ h1, ?_⟩
      exact substrHit_of_cons '&' _ _ (substrHit_of_append_right _ _ _ h1)
    · right
      exact h2
  · right
    exact h3

theorem matchUsbIdLoop_append (hwid : List Char) (pre rest : List UsbEntry)
    (h : ∀ x ∈ pre, entryHits hwid x = false) :
    matchUsbIdLoop hwid (pre ++ rest) = matchUsbIdLoop hwid rest := by
  induction pre with
  | nil => rfl
  | cons e pre ih =>
    rw [List.cons_append, matchUsbIdLoop,
      if_neg (by simp [h e (List.mem_cons_self e pre)]),
      ih (fun x hx => h x (List.mem_cons_of_mem e hx))]

theorem matchUsbIdLoop_none (hwid : List Char) (entries : List UsbEntry)
    (h : ∀ x ∈ entries, entryHits hwid x = false) :
    matchUsbIdLoop hwid entries = none := by
  have h2 := matchUsbIdLoop_append hwid entries [] h
  rwa [List.append_nil] at h2

/-- C6 counterexample: the hardware-ID string `"USB VID_045B PID_5300"`
contains none of the three documented encodings of the pair
`(045B, 5300)` — the Windows encoding requires the `&` separator — yet
`match_usb_id` matches it, because the code only checks that `VID_045B` and
`PID_5300` each occur somewhere in the string. -/
theorem matchUsbId_separator_cex :
    containsDocumentedEncoding usbCexHwid usbEntryAtlas = false ∧
    matchUsbId [usbEntryAtlas] usbCexHwid = some "atlas3".toList :=
  ⟨by decide, by decide⟩

/-- C6 (amended): `match_usb_id` returns `None` on an empty hardware-ID
string; it returns the device type of the first registry entry whose pair
occurs in the string — in particular whenever one of the three documented
encodings occurs (the `VID_xxxx&PID_xxxx` encoding is matched more loosely,
as separate containment of `VID_xxxx` and `PID_xxxx`); and it returns
`None` when no entry's checks hit. -/
theorem matchUsbId_encodings
    (entries pre post : List UsbEntry) (e : UsbEntry) (hwid : List Char) :
    matchUsbId entries [] = none ∧
    (hwid ≠ [] → (∀ x ∈ pre, entryHits hwid x = false) →
      containsDocumentedEncoding hwid e = true →
      matchUsbId (pre ++ e :: post) hwid = some e.deviceType) ∧
    ((∀ x ∈ entries, entryHits hwid x = false) → matchUsbId entries hwid = none) := by
  refine ⟨rfl, ?_, ?_⟩
  · intro hne hpre hdoc
    rw [matchUsbId, if_neg (by simp only [List.isEmpty_iff]; exact hne),
      matchUsbIdLoop_append hwid pre (e :: post) hpre, matchUsbIdLoop,
      if_pos (entryHits_of_documented hwid e hdoc)]
  · intro h
    rw [matchUsbId]
    by_cases he : hwid.isEmpty = true
    · rw [if_pos he]
    · rw [if_neg he, matchUsbIdLoop_none hwid entries h]

/-- Witness for the amended C6: the empty string, the spec's pyserial-form
example (lower-case, matched case-insensitively), and a string with no
encoding of the pair. -/
theorem matchUsbId_encodings_witness :
    matchUsbId [usbEntryAtlas] [] = none ∧
    matchUsbId [usbEntryAtlas] usbExampleHwid = some "atlas3".toList ∧
    matchUsbId [usbEntryAtlas] "no ids here".toList = none := by
  refine ⟨(matchUsbId_encodings [usbEntryAtlas] [] [] usbEntryAtlas usbExampleHwid).1,
    ?_, ?_⟩
  · exact (matchUsbId_encodings [usbEntryAtlas] [] [] usbEntryAtlas usbExampleHwid).2.1
      (by decide) (fun x hx => absurd hx (List.not_mem_nil x)) (by decide)
  · exact (matchUsbId_encodings [usbEntryAtlas] [] [] usbEntryAtlas
      "no ids here".toList).2.2 (by decide)

/-! ### Properties of the concurrent scan's result collection -/

theorem cacheLookup_cacheInsert_self (m : List (List Char × DetectionResult))
    (p : List Char) (r : DetectionResult) :
    cacheLookup (cacheInsert m p r) p = some r := by
  induction m with
  | nil => rw [cacheInsert, cacheLookup, if_pos rfl]
  | cons qr rest ih =>
    obtain ⟨q, s⟩ := qr
    rw [cacheInsert]
    by_cases hq : q = p
    · rw [if_pos hq, cacheLookup, if_pos rfl]
    · rw [if_neg hq, cacheLookup, if_neg hq]
      exact ih

theorem cacheLookup_cacheInsert_other (m : List (List Char × DetectionResult))
    (p q : List Char) (r : DetectionResult) (h : p ≠ q) :
    cacheLookup (cacheInsert m p r) q = cacheLookup m q := by
  induction m with
  | nil =>
    rw [cacheInsert]
    rw [show cacheLookup [(p, r)] q = if p = q then some r else cacheLookup [] q from rfl]
    rw [if_neg h]
  | cons q2s rest ih =>
    obtain ⟨q2, s⟩ := q2s
    rw [cacheInsert]
    by_cases hq : q2 = p
    · subst hq
      rw [if_pos rfl, cacheLookup, cacheLookup, if_neg h, if_neg h]
    · rw [if_neg hq, cacheLookup, cacheLookup]
      by_cases hq2 : q2 = q
      · rw [if_pos hq2, if_pos hq2]
      · rw [if_neg hq2, if_neg hq2]
        exact ih

theorem cacheInsert_map_fst_fresh (m : List (List Char × DetectionResult))
    (p : List Char) (r : DetectionResult) (h : cacheLookup m p = none) :
    (cacheInsert m p r).map Prod.fst = m.map Prod.fst ++ [p] := by
  induction m with
  | nil => rfl
  | cons qs rest ih =>
    obtain ⟨q, s⟩ := qs
    rw [cacheLookup] at h
    by_cases hq : q = p
    · rw [if_pos hq] at h
      simp at h
    · rw [if_neg hq] at h
      rw [cacheInsert, if_neg hq, List.map_cons, List.map_cons, ih h, List.cons_append]

theorem runTasks_untouched (tasks : List (List Char × TaskOutcome)) :
    ∀ (res cache : List (List Char × DetectionResult)) (p : List Char),
      p ∉ tasks.map Prod.fst →
      cacheLookup (runTasks tasks res cache).1 p = cacheLookup res p ∧
      cacheLookup (runTasks tasks res cache).2 p = cacheLookup cache p := by
  induction tasks with
  | nil => intro res cache p _; exact ⟨rfl, rfl⟩
  | cons t rest ih =>
    intro res cache p h
    obtain ⟨q, o⟩ := t
    have hq : q ≠ p := by
      intro e
      subst e
      refine h ?_
      rw [List.map_cons]
      exact List.mem_cons_self _ _
    have h2 : p ∉ rest.map Prod.fst := by
      intro m
      refine h ?_
      rw [List.map_cons]
      exact List.mem_cons_of_mem _ m
    cases o with
    | completed r =>
      rw [runTasks]
      exact ⟨(ih _ _ p h2).1.trans (cacheLookup_cacheInsert_other res q p r hq),
        (ih _ _ p h2).2.trans (cacheLookup_cacheInsert_other cache q p r hq)⟩
    | raised msg =>
      rw [runTasks]
      exact ⟨(ih _ _ p h2).1.trans
        (cacheLookup_cacheInsert_other res q p (taskFailure q msg) hq),
        (ih _ _ p h2).2⟩

theorem runTasks_lookup_raised (tasks : List (List Char × TaskOutcome)) :
    ∀ (res cache : List (List Char × DetectionResult)) (p msg : List Char),
      (p, TaskOutcome.raised msg) ∈ tasks → (tasks.map Prod.fst).Nodup →
      cacheLookup (runTasks tasks res cache).1 p = some (taskFailure p msg) ∧
      cacheLookup (runTasks tasks res cache).2 p = cacheLookup cache p := by
  induction tasks with
  | nil => intro res cache p msg hmem _; exact absurd hmem (List.not_mem_nil _)
  | cons t rest ih =>
    intro res cache p msg hmem hnd
    obtain ⟨q, o⟩ := t
    rw [List.map_cons, List.nodup_cons] at hnd
    rcases List.mem_cons.mp hmem with he | hm
    · injection he with h1 h2
      subst h1
      subst h2
      have hport : p ∉ rest.map Prod.fst := hnd.1
      rw [runTasks]
      refine ⟨(runTasks_untouched rest _ cache p hport).1.trans ?_,
        (runTasks_untouched rest _ cache p hport).2⟩
      exact cacheLookup_cacheInsert_self res p (taskFailure p msg)
    · have hpq : q ≠ p := by
        intro e
        subst e
        exact hnd.1 (List.mem_map.mpr ⟨_, hm, rfl⟩)
      cases o with
      | completed r2 =>
        rw [runTasks]
        refine ⟨(ih _ _ p msg hm hnd.2).1, (ih _ _ p msg hm hnd.2).2.trans ?_⟩
        exact cacheLookup_cacheInsert_other cache q p r2 hpq
      | raised msg2 =>
        rw [runTasks]
        exact ih _ _ p msg hm hnd.2

theorem runTasks_lookup_completed (tasks : List (List Char × TaskOutcome)) :
    ∀ (res cache : List (List Char × DetectionResult)) (p : List Char)
      (r : DetectionResult),
      (p, TaskOutcome.completed r) ∈ tasks → (tasks.map Prod.fst).Nodup →
      cacheLookup (runTasks tasks res cache).1 p = some r ∧
      cacheLookup (runTasks tasks res cache).2 p = some r := by
  induction tasks with
  | nil => intro res cache p r hmem _; exact absurd hmem (List.not_mem_nil _)
  | cons t rest ih =>
    intro res cache p r hmem hnd
    obtain ⟨q, o⟩ := t
    rw [List.map_cons, List.nodup_cons] at hnd
    rcases List.mem_cons.mp hmem with he | hm
    · injection he with h1 h2
      subst h1
      subst h2
      have hport : p ∉ rest.map Prod.fst := hnd.1
      rw [runTasks]
      exact ⟨(runTasks_untouched rest _ _ p hport).1.trans
          (cacheLookup_cacheInsert_self res p r),
        (runTasks_untouched rest _ _ p hport).2.trans
          (cacheLookup_cacheInsert_self cache p r)⟩
    · have hpq : q ≠ p := by
        intro e
        subst e
        exact hnd.1 (List.mem_map.mpr ⟨_, hm, rfl⟩)
      cases o with
      | completed r2 =>
        rw [runTasks]
        exact ih _ _ p r hm hnd.2
      | raised msg2 =>
        rw [runTasks]
        exact ih _ _ p r hm hnd.2

theorem runTasks_ports (tasks : List (List Char × TaskOutcome)) :
    ∀ (res cache : List (List Char × DetectionResult)),
      (tasks.map Prod.fst).Nodup →
      (∀ x ∈ tasks.map Prod.fst, cacheLookup res x = none) →
      (runTasks tasks res cache).1.map Prod.fst =
        res.map Prod.fst ++ tasks.map Prod.fst := by
  induction tasks with
  | nil => intro res cache _ _; simp [runTasks]
  | cons t rest ih =>
    intro res cache hnd hfresh
    obtain ⟨q, o⟩ := t
    rw [List.map_cons, List.nodup_cons] at hnd
    have hq : cacheLookup res q = none := by
      refine hfresh q ?_
      rw [List.map_cons]
      exact List.mem_cons_self _ _
    have hfresh2 : ∀ r2 : DetectionResult,
        ∀ x ∈ rest.map Prod.fst, cacheLookup (cacheInsert res q r2) x = none := by
      intro r2 x hx
      have hxq : q ≠ x := by
        intro e
        subst e
        exact hnd.1 hx
      rw [cacheLookup_cacheInsert_other res q x r2 hxq]
      refine hfresh x ?_
      rw [List.map_cons]
      exact List.mem_cons_of_mem _ hx
    cases o with
    | completed r =>
      rw [runTasks, ih _ _ hnd.2 (hfresh2 r), cacheInsert_map_fst_fresh res q r hq]
      simp
    | raised msg =>
      rw [runTasks, ih _ _ hnd.2 (hfresh2 (taskFailure q msg)),
        cacheInsert_map_fst_fresh res q (taskFailure q msg) hq]
      simp

/-- C8 counterexample: a single dispatched task that raises is converted to
a failed result in the returned mapping, but nothing is written to the
shared cache for its port — the scan ends with zero cache entries for one
dispatched port, not one entry per port. -/
theorem scan_exception_cache_cex :
    (runTasks [("COM7".toList, .raised "boom".toList)] [] []).1 =
      [("COM7".toList, taskFailure "COM7".toList "boom".toList)] ∧
    (runTasks [("COM7".toList, .raised "boom".toList)] [] []).2 = [] ∧
    cacheLookup (runTasks [("COM7".toList, .raised "boom".toList)] [] []).2
      "COM7".toList = none :=
  ⟨rfl, rfl, rfl⟩

/-- C8 (amended): a per-task exception never aborts the collection loop —
the returned mapping has exactly one entry per dispatched port, in order,
and a raising task contributes a failed result carrying its error text;
however only tasks that complete without raising are written to the shared
cache, while a raising task leaves the cache entry for its port unchanged. -/
theorem scan_results_complete
    (tasks : List (List Char × TaskOutcome))
    (cache : List (List Char × DetectionResult))
    (p msg : List Char) (r : DetectionResult) :
    ((tasks.map Prod.fst).Nodup →
      (runTasks tasks [] cache).1.map Prod.fst = tasks.map Prod.fst) ∧
    ((tasks.map Prod.fst).Nodup → (p, TaskOutcome.raised msg) ∈ tasks →
      cacheLookup (runTasks tasks [] cache).1 p = some (taskFailure p msg) ∧
      cacheLookup (runTasks tasks [] cache).2 p = cacheLookup cache p) ∧
    ((tasks.map Prod.fst).Nodup → (p, TaskOutcome.completed r) ∈ tasks →
      cacheLookup (runTasks tasks [] cache).1 p = some r ∧
      cacheLookup (runTasks tasks [] cache).2 p = some r) := by
  refine ⟨?_, ?_, ?_⟩
  · intro hnd
    have h := runTasks_ports tasks [] cache hnd (fun x _ => rfl)
    rwa [List.map_nil, List.nil_append] at h
  · intro hnd hmem
    exact runTasks_lookup_raised tasks [] cache p msg hmem hnd
  · intro hnd hmem
    exact runTasks_lookup_completed tasks [] cache p r hmem hnd

/-- Witness for the amended C8: a two-port scan in which the first task
completes and the second raises. -/
theorem scan_results_complete_witness :
    (runTasks scanTasksW [] []).1.map Prod.fst = scanTasksW.map Prod.fst ∧
    (cacheLookup (runTasks scanTasksW [] []).1 "COM2".toList =
      some (taskFailure "COM2".toList "io error".toList) ∧
     cacheLookup (runTasks scanTasksW [] []).2 "COM2".toList =
      cacheLookup [] "COM2".toList) ∧
    (cacheLookup (runTasks scanTasksW [] []).1 "COM1".toList =
      some (unknownDeviceResult "COM1".toList) ∧
     cacheLookup (runTasks scanTasksW [] []).2 "COM1".toList =
      some (unknownDeviceResult "COM1".toList)) := by
  refine ⟨?_, ?_, ?_⟩
  · exact (scan_results_complete scanTasksW [] "COM1".toList "x".toList
      (unknownDeviceResult "COM1".toList)).1 (by decide)
  · exact (scan_results_complete scanTasksW [] "COM2".toList "io error".toList
      (unknownDeviceResult "COM1".toList)).2.1 (by decide) (by decide)
  · exact (scan_results_complete scanTasksW [] "COM1".toList "x".toList
      (unknownDeviceResult "COM1".toList)).2.2 (by decide) (by decide)

/-! ### Properties of the scan-in-progress flag -/

theorem stepSystem_preserves_inv :
    ∀ (s : ScanSystem) (t : Bool), ScanInv s → ScanInv (stepSystem s t) := by decide

theorem execSchedule_inv (sched : List Bool) :
    ∀ s : ScanSystem, ScanInv s → ScanInv (execSchedule s sched) := by
  induction sched with
  | nil => intro s h; exact h
  | cons t rest ih =>
    intro s h
    exact ih _ (stepSystem_preserves_inv s t h)

/-- C9 counterexample: under the interleaving in which both calls run the
`if self._scan_in_progress` check before either executes
`self._scan_in_progress = True`, both calls enter the scan body — after
four steps both program counters are `scanning`, two full scans in flight
at once, and both calls finish having dispatched the scan instead of one of
them returning the cached snapshot.  The check and the set are not one
atomic operation. -/
theorem scan_flag_race_cex :
    (execSchedule scanInit [false, true, false, true]).pc1 = ScanPc.scanning ∧
    (execSchedule scanInit [false, true, false, true]).pc2 = ScanPc.scanning ∧
    (execSchedule scanInit [false, true, false, true, false, true]).pc1 =
      ScanPc.finished true ∧
    (execSchedule scanInit [false, true, false, true, false, true]).pc2 =
      ScanPc.finished true :=
  ⟨rfl, rfl, rfl, rfl⟩

/-- C9 (amended): the flag is checked and then set in two separate steps,
not atomically, so two overlapping calls may both scan; what the code does
guarantee is that a call whose check sees the flag already set returns the
cached snapshot without scanning, that the scan body clears the flag on
every exit (the `finally` path, also when dispatch raises), and that once
both calls have returned the flag is clear again. -/
theorem scan_flag_guard (sched : List Bool) (b1 b2 : Bool) :
    stepPc true ScanPc.ready = (true, ScanPc.finished false) ∧
    (∀ f, stepPc f ScanPc.scanning = (false, ScanPc.finished true)) ∧
    ((execSchedule scanInit sched).pc1 = ScanPc.finished b1 →
      (execSchedule scanInit sched).pc2 = ScanPc.finished b2 →
      (execSchedule scanInit sched).flag = false) := by
  refine ⟨rfl, fun f => rfl, ?_⟩
  intro h1 h2
  have hinv := execSchedule_inv sched scanInit (fun h => absurd h (by decide))
  cases hfl : (execSchedule scanInit sched).flag
  · rfl
  · rcases hinv hfl with hc | hc
    · rw [h1] at hc
      cases hc
    · rw [h2] at hc
      cases hc

/-- Witness for the amended C9: after the racing schedule completes, the
flag is clear again. -/
theorem scan_flag_guard_witness :
    (execSchedule scanInit [false, true, false, true, false, true]).flag = false :=
  (scan_flag_guard [false, true, false, true, false, true] true true).2.2 rfl rfl

/-! ### Field extraction at the matching boundary -/

theorem extractField_eval (search : ReSearch) (response pat2 : List Char)
    (responseFormat : FieldKey → Option (List Char)) (key : FieldKey)
    (hf : responseFormat key = some pat2) (hp : pat2.isEmpty = false) :
    extractField search response responseFormat key =
      catchExtract (searchBody search pat2 response) := by
  rw [extractField, hf]
  dsimp only
  rw [if_neg (by simp [hp])]

/-- C10 counterexample: for the pattern `(A)?B` searched in the response
`B` the match succeeds with group 1 not participating, so `match.group(1)`
is `None` and `match.group(1).strip()` raises `AttributeError`, which
`except (re.error, IndexError)` does not catch — `_extract_field` lets the
exception escape instead of returning an optional value. -/
theorem extractField_raises_cex :
    extractField searchOptGroup "B".toList fmtOptGroup FieldKey.modelRegex =
      Except.error PyExn.attributeError := rfl

/-- C10 (amended): `_extract_field` returns `None` rather than raising for
a missing pattern, a falsy (empty) pattern, an invalid regular expression
(`re.error`) and a pattern without a capturing group (`IndexError`); but it
is not total — when the pattern's group 1 exists yet does not participate
in the match, `group(1)` is `None` and `.strip()` raises `AttributeError`,
the one exception that can escape. -/
theorem extractField_guarded (search : ReSearch) (response pat : List Char)
    (responseFormat : FieldKey → Option (List Char)) (key : FieldKey) :
    (responseFormat key = none →
      extractField search response responseFormat key = Except.ok none) ∧
    (responseFormat key = some pat → pat.isEmpty = true →
      extractField search response responseFormat key = Except.ok none) ∧
    (responseFormat key = some pat → search pat response = ReOutcome.compileError →
      extractField search response responseFormat key = Except.ok none) ∧
    (responseFormat key = some pat →
      search pat response = ReOutcome.matched Group1.indexError →
      extractField search response responseFormat key = Except.ok none) ∧
    (∀ v, extractField search response responseFormat key = Except.error v →
      v = PyExn.attributeError) := by
  refine ⟨?_, ?_, ?_, ?_, ?_⟩
  · intro hf
    rw [extractField, hf]
  · intro hf hp
    rw [extractField, hf]
    dsimp only
    rw [if_pos hp]
  · intro hf hs
    rw [extractField, hf]
    dsimp only
    by_cases hp : pat.isEmpty = true
    · rw [if_pos hp]
    · rw [if_neg hp, searchBody, hs]
      rfl
  · intro hf hs
    rw [extractField, hf]
    dsimp only
    by_cases hp : pat.isEmpty = true
    · rw [if_pos hp]
    · rw [if_neg hp, searchBody, hs]
      rfl
  · intro v hv
    cases hf : responseFormat key with
    | none =>
      rw [extractField, hf] at hv
      cases hv
    | some pat2 =>
      cases hp : pat2.isEmpty with
      | true =>
        rw [extractField, hf] at hv
        dsimp only at hv
        rw [if_pos hp] at hv
        cases hv
      | false =>
        rw [extractField_eval search response pat2 responseFormat key hf hp,
          searchBody] at hv
        cases hs : search pat2 response with
        | compileError =>
          rw [hs] at hv
          cases hv
        | noMatch =>
          rw [hs] at hv
          cases hv
        | matched g =>
          cases g with
          | indexError =>
            rw [hs] at hv
            cases hv
          | noneGroup =>
            rw [hs] at hv
            cases hv
            rfl
          | captured gg =>
            rw [hs] at hv
            cases hv

/-- Witness for the amended C10: concrete oracles for each arm — a missing
pattern, an empty pattern, an engine that raises `re.error`, a match whose
`group(1)` raises `IndexError`, and the escaping `AttributeError` of the
non-participating group. -/
theorem extractField_guarded_witness :
    extractField searchAlwaysError "resp".toList fmtNone FieldKey.modelRegex =
      Except.ok none ∧
    extractField searchAlwaysError "resp".toList fmtEmpty FieldKey.modelRegex =
      Except.ok none ∧
    extractField searchAlwaysError "resp".toList fmtAll FieldKey.serialRegex =
      Except.ok none ∧
    extractField searchNoGroup "resp".toList fmtAll FieldKey.firmwareRegex =
      Except.ok none ∧
    PyExn.attributeError = PyExn.attributeError := by
  refine ⟨?_, ?_, ?_, ?_, ?_⟩
  · exact (extractField_guarded searchAlwaysError "resp".toList "(x)".toList fmtNone
      FieldKey.modelRegex).1 rfl
  · exact (extractField_guarded searchAlwaysError "resp".toList [] fmtEmpty
      FieldKey.modelRegex).2.1 rfl rfl
  · exact (extractField_guarded searchAlwaysError "resp".toList "(x)".toList fmtAll
      FieldKey.serialRegex).2.2.1 rfl rfl
  · exact (extractField_guarded searchNoGroup "resp".toList "(x)".toList fmtAll
      FieldKey.firmwareRegex).2.2.2.1 rfl rfl
  · exact (extractField_guarded searchOptGroup "B".toList "(A)?B".toList fmtOptGroup
      FieldKey.modelRegex).2.2.2.2 PyExn.attributeError rfl

end Prometheus
